import Mathlib

/-!
Verification of the connection-lifecycle and transaction-command core of the
kysely-bun-sql dialect (src/src/driver.ts, src/src/config.ts).

The embedding follows the source: JS objects that matter to the claims are
modelled structurally (options objects as association lists of string keys to
values, the PID tracking `Map` as an association list of pid to timestamp),
machine time is an explicit `Nat` parameter, and the two asynchronous effects
the claims observe (the `pg_backend_pid` identity query and the
`onCreateConnection` hook) are recorded as fields of the acquire outcome.
-/

/-- A JavaScript value as far as the configuration claims need one: strings,
numbers, booleans and function values.  A function value carries an identity
tag; two callbacks are the same value exactly when their tags agree, which is
how "callback values retain identity, not cloned or serialized" is expressed. -/
inductive JsValue where
  | str : String → JsValue
  | num : Int → JsValue
  | bool : Bool → JsValue
  | callback : Nat → JsValue
deriving DecidableEq

/-- A JS options object: association list of keys to values (keys unique in
any object the runtime builds; lookup finds the first binding). -/
abbrev OptionsObject := List (String × JsValue)

/-- Property lookup on an options object. -/
def lookupField : OptionsObject → String → Option JsValue
  | [], _ => none
  | (k, v) :: rest, key => if k = key then some v else lookupField rest key

/-- The rest-spread of `const { url: _ignoredUrl, ...restClientOptions }`:
every binding except the named key. -/
def removeField : OptionsObject → String → OptionsObject
  | [], _ => []
  | (k, v) :: rest, key =>
    if k = key then removeField rest key else (k, v) :: removeField rest key

/-- The three shapes of argument `init` can hand to the `SQL` constructor
(`SqlConstructorArgs` in the repository's public API). -/
inductive SqlConstructorArgs where
  | urlString : String → SqlConstructorArgs
  | options : OptionsObject → SqlConstructorArgs
  | empty : SqlConstructorArgs
deriving DecidableEq

/-- Config resolution from `BunPostgresDriver.init` (src/src/driver.ts
lines 196-217): the branch on `this.#config.url` is a JS truthiness test, so
the empty string takes the else-branch; with both url and clientOptions the
constructed object is `{ url: config.url, ...restClientOptions }` where
`restClientOptions` has the `url` key destructured away. -/
def resolveSqlConstructorArgs (url : Option String)
    (clientOptions : Option OptionsObject) : SqlConstructorArgs :=
  match url with
  | some u =>
    if u = "" then
      match clientOptions with
      | some opts => .options opts
      | none => .empty
    else
      match clientOptions with
      | some opts => .options (("url", .str u) :: removeField opts "url")
      | none => .urlString u
  | none =>
    match clientOptions with
    | some opts => .options opts
    | none => .empty

/-- Driver configuration as far as `init` reads it: an optional existing
client (identified by a tag), an optional url, optional client options. -/
structure DialectConfig where
  client : Option Nat
  url : Option String
  clientOptions : Option OptionsObject

/-- What `init` does: adopt an externally supplied client, or construct one. -/
inductive InitResult where
  | adoptClient : Nat → InitResult
  | construct : SqlConstructorArgs → InitResult
deriving DecidableEq

/-- `BunPostgresDriver.init` (src/src/driver.ts lines 190-218). -/
def driverInit (cfg : DialectConfig) : InitResult :=
  match cfg.client with
  | some c => .adoptClient c
  | none => .construct (resolveSqlConstructorArgs cfg.url cfg.clientOptions)

/-- A raw Bun SQL result: an ordered row sequence with the `command` and
`count` metadata properties Bun attaches to the array
(`BunSqlResult` in src/src/driver.ts lines 150-155). -/
structure BunSqlResult (T : Type) where
  rows : List T
  command : Option String
  count : Option Nat
deriving DecidableEq

/-- Kysely's `QueryResult` as this driver populates it. -/
structure QueryResult (T : Type) where
  numAffectedRows : Option Nat
  rows : List T
deriving DecidableEq

/-- The result interpretation of `BunPostgresConnection.executeQuery`
(src/src/driver.ts lines 320-348): `numAffectedRows` is `BigInt(count)` when
the command is INSERT/UPDATE/DELETE/MERGE and `count` is defined, otherwise
undefined; `rows` is the materialized array `[...result]`. -/
def executeQuery {T : Type} (result : BunSqlResult T) : QueryResult T :=
  let command := result.command
  let count := result.count
  let numAffectedRows :=
    if (command = some "INSERT" || command = some "UPDATE" ||
        command = some "DELETE" || command = some "MERGE") && count.isSome
    then count
    else none
  { numAffectedRows := numAffectedRows, rows := result.rows }

/-- `BunPostgresConnection.streamQuery` (src/src/driver.ts lines 350-358):
run `executeQuery`, then yield `{ rows: [row] }` once per row, in order. -/
def streamQuery {T : Type} (result : BunSqlResult T) : List (QueryResult T) :=
  (executeQuery result).rows.map (fun row => { numAffectedRows := none, rows := [row] })

/-- A value passed to `releaseConnection`: either an instance of the driver's
own `BunPostgresConnection` class (wrapping a reserved client identified by a
tag) or any other value. -/
inductive ConnectionValue where
  | bunPostgres : Nat → ConnectionValue
  | foreign : JsValue → ConnectionValue
deriving DecidableEq

/-- Observable outcome of `releaseConnection`: which reserved client's
`release()` was invoked, if any, and whether the call threw. -/
structure ReleaseOutcome where
  released : Option Nat
  threw : Bool
deriving DecidableEq

/-- `BunPostgresDriver.releaseConnection` (src/src/driver.ts lines 297-301):
`release()` is called only behind an `instanceof BunPostgresConnection`
guard; any other value falls through and the method returns normally. -/
def releaseConnection : ConnectionValue → ReleaseOutcome
  | .bunPostgres cid => { released := some cid, threw := false }
  | .foreign _ => { released := none, threw := false }

/-- Isolation levels of the transaction settings (spec section 3). -/
inductive IsolationLevel where
  | readUncommitted
  | readCommitted
  | repeatableRead
  | serializable
deriving DecidableEq

/-- The literal lowercase form of an isolation level. -/
def IsolationLevel.render : IsolationLevel → String
  | .readUncommitted => "read uncommitted"
  | .readCommitted => "read committed"
  | .repeatableRead => "repeatable read"
  | .serializable => "serializable"

/-- Access modes of the transaction settings (spec section 3). -/
inductive AccessMode where
  | readWrite
  | readOnly
deriving DecidableEq

/-- The literal lowercase form of an access mode. -/
def AccessMode.render : AccessMode → String
  | .readWrite => "read write"
  | .readOnly => "read only"

/-- Transaction settings: optional isolation level and access mode. -/
structure TransactionSettings where
  isolationLevel : Option IsolationLevel
  accessMode : Option AccessMode
deriving DecidableEq

/-- Modelled from the spec: the Transaction Command Builder of spec section
4.3 (`buildBeginCommand`).  The revision of src/src/driver.ts staged here
predates the settings-aware `beginTransaction`; the current builder is only
referenced by the repository's unit tests ("transaction with isolation level
and access mode" and companions) and by the index.ts export list, so it is
reconstructed here from the spec's rules: both unset gives "begin", otherwise
"start transaction" extended with " isolation level {level}" when set and
with " {mode}" when set, levels and modes in their literal lowercase forms. -/
def buildBeginCommand (settings : TransactionSettings) : String :=
  if settings.isolationLevel.isSome || settings.accessMode.isSome then
    let base := "start transaction"
    let withIso :=
      match settings.isolationLevel with
      | some level => base ++ " isolation level " ++ level.render
      | none => base
    match settings.accessMode with
    | some mode => withIso ++ " " ++ mode.render
    | none => withIso
  else
    "begin"

/-- Modelled from the spec: `beginTransaction(handle, settings)` executes the
text produced by the Transaction Command Builder on the handle (spec section
4.2).  The handle is represented by the list of SQL texts executed on it so
far; `beginTransaction` appends exactly one command. -/
def beginTransaction (executed : List String) (settings : TransactionSettings) :
    List String :=
  executed ++ [buildBeginCommand settings]

/-- Default connection TTL, one hour in milliseconds (src/src/driver.ts). -/
def DEFAULT_CONNECTION_TTL_MS : Nat := 3600 * 1000

/-- Minimum interval between prune operations in milliseconds
(src/src/driver.ts). -/
def PRUNE_INTERVAL_MS : Nat := 60000

/-- The mutable state of `BunPostgresDriver` that `acquireConnection` reads
and writes: the PID tracking map (`#initializedPids`, pid to last-seen
timestamp) and the last-prune timestamp.  The map is an association list with
`Map.get`/`Map.set` semantics. -/
structure DriverState where
  pidMap : List (Int × Nat)
  lastPruneTime : Nat
deriving DecidableEq

/-- `Map.prototype.get`: the binding of a pid, if present. -/
def lookupPid : List (Int × Nat) → Int → Option Nat
  | [], _ => none
  | (p, t) :: rest, pid => if p = pid then some t else lookupPid rest pid

/-- `Map.prototype.set`: replace the binding of a pid, or append it. -/
def setPid : List (Int × Nat) → Int → Nat → List (Int × Nat)
  | [], pid, now => [(pid, now)]
  | (p, t) :: rest, pid, now =>
    if p = pid then (pid, now) :: rest else (p, t) :: setPid rest pid now

/-- `BunPostgresDriver.#pruneStaleConnections` (src/src/driver.ts lines
224-239): a no-op within `PRUNE_INTERVAL_MS` of the last prune; otherwise
record the prune time and delete every entry with `now - timestamp > ttl`. -/
def pruneStaleConnections (ttl now : Nat) (st : DriverState) : DriverState :=
  if now - st.lastPruneTime < PRUNE_INTERVAL_MS then st
  else
    { lastPruneTime := now,
      pidMap := st.pidMap.filter (fun e => decide (now - e.2 ≤ ttl)) }

/-- The two ways `acquireConnection` can throw after reserving: the identity
query yielded no number (the error carries the message built at
src/src/driver.ts lines 256-259), or the awaited hook itself threw. -/
inductive AcquireError where
  | pidUnavailable : String → AcquireError
  | hookFailed : AcquireError
deriving DecidableEq

/-- The message of the identity-query configuration error
(src/src/driver.ts lines 256-259). -/
def pidErrorMessage : String :=
  "Failed to retrieve PostgreSQL backend PID. Ensure you are connected to a PostgreSQL database."

/-- The environment of one `acquireConnection` call: the wall-clock time, what
the identity query would yield (`some pid` when `result?.[0]?.pid` is a
number, `none` otherwise), and whether the hook would throw if awaited. -/
structure AcquireEnv where
  now : Nat
  pidResult : Option Int
  hookThrows : Bool

/-- Observable outcome of one `acquireConnection` call: whether the identity
query was issued, whether the hook was invoked, the error thrown if any, and
the driver state afterwards. -/
structure AcquireResult where
  identityQueried : Bool
  hookInvoked : Bool
  error : Option AcquireError
  state : DriverState
deriving DecidableEq

/-- The `isNewConnection` test of src/src/driver.ts lines 269-271: the pid is
treated as new when it is absent from the map or its recorded timestamp is
older than the TTL. -/
def isNewPid (ttl now : Nat) (existingTimestamp : Option Nat) : Bool :=
  match existingTimestamp with
  | none => true
  | some ts => decide (now - ts > ttl)

/-- `BunPostgresDriver.acquireConnection` (src/src/driver.ts lines 241-283).
With no hook configured it returns at once, issuing no identity query and
leaving the state untouched.  Otherwise it prunes lazily, issues the identity
query, throws `pidUnavailable` when the result is not a number, decides
newness (`absent, or last seen more than ttl ago`), writes `pid := now` into
the map in both branches — before the hook is awaited — and invokes the hook
exactly on the new branch. -/
def acquireConnection (hookConfigured : Bool) (ttl : Nat) (env : AcquireEnv)
    (st : DriverState) : AcquireResult :=
  if hookConfigured then
    let st1 := pruneStaleConnections ttl env.now st
    match env.pidResult with
    | none =>
      { identityQueried := true, hookInvoked := false,
        error := some (.pidUnavailable pidErrorMessage), state := st1 }
    | some pid =>
      let isNew := isNewPid ttl env.now (lookupPid st1.pidMap pid)
      let st2 := { st1 with pidMap := setPid st1.pidMap pid env.now }
      if isNew then
        { identityQueried := true, hookInvoked := true,
          error := if env.hookThrows then some .hookFailed else none,
          state := st2 }
      else
        { identityQueried := true, hookInvoked := false, error := none,
          state := st2 }
  else
    { identityQueried := false, hookInvoked := false, error := none,
      state := st }

/-- A sequence of non-overlapping acquire calls whose identity query succeeds
and whose hook never throws, each given as `(now, pid)`: total number of hook
invocations and the final driver state. -/
def acquireRun (ttl : Nat) : List (Nat × Int) → DriverState → Nat × DriverState
  | [], st => (0, st)
  | (now, pid) :: rest, st =>
    let r := acquireConnection true ttl { now := now, pidResult := some pid, hookThrows := false } st
    let tail := acquireRun ttl rest r.state
    ((if r.hookInvoked then 1 else 0) + tail.1, tail.2)

/-- A sequence of non-overlapping acquire calls under arbitrary environments:
the list of their outcomes, threading the state. -/
def acquireTrace (hookConfigured : Bool) (ttl : Nat) :
    List AcquireEnv → DriverState → List AcquireResult
  | [], _ => []
  | env :: rest, st =>
    let r := acquireConnection hookConfigured ttl env st
    r :: acquireTrace hookConfigured ttl rest r.state

/-- The driver state after a sequence of acquire calls. -/
def acquireFinalState (hookConfigured : Bool) (ttl : Nat) :
    List AcquireEnv → DriverState → DriverState
  | [], st => st
  | env :: rest, st =>
    acquireFinalState hookConfigured ttl rest
      (acquireConnection hookConfigured ttl env st).state

/-! ### Helper lemmas about the PID map -/

lemma lookupPid_setPid_self (m : List (Int × Nat)) (pid : Int) (now : Nat) :
    lookupPid (setPid m pid now) pid = some now := by
  induction m with
  | nil => simp [setPid, lookupPid]
  | cons e rest ih =>
    obtain ⟨p, t⟩ := e
    by_cases h : p = pid <;> simp [setPid, h, lookupPid, ih]

lemma lookupPid_setPid_ne (m : List (Int × Nat)) (pid : Int) (now : Nat)
    (q : Int) (h : q ≠ pid) :
    lookupPid (setPid m pid now) q = lookupPid m q := by
  induction m with
  | nil => simp [setPid, lookupPid, Ne.symm h]
  | cons e rest ih =>
    obtain ⟨p, t⟩ := e
    by_cases hp : p = pid
    · subst hp
      simp [setPid, lookupPid, Ne.symm h]
    · by_cases hq : p = q <;> simp [setPid, hp, lookupPid, hq, ih, h]

lemma lookupPid_filter_none (m : List (Int × Nat)) (q : Int)
    (f : Int × Nat → Bool) (h : lookupPid m q = none) :
    lookupPid (m.filter f) q = none := by
  induction m with
  | nil => rfl
  | cons e rest ih =>
    obtain ⟨p, t⟩ := e
    by_cases hpq : p = q
    · simp [lookupPid, hpq] at h
    · simp only [lookupPid, if_neg hpq] at h
      cases hf : f (p, t) <;> simp [List.filter_cons, hf, lookupPid, hpq, ih h]

lemma lookupPid_filter_keep (m : List (Int × Nat)) (pid : Int) (ts : Nat)
    (f : Int × Nat → Bool) (h : lookupPid m pid = some ts)
    (hf : f (pid, ts) = true) :
    lookupPid (m.filter f) pid = some ts := by
  induction m with
  | nil => simp [lookupPid] at h
  | cons e rest ih =>
    obtain ⟨p, t⟩ := e
    by_cases hpq : p = pid
    · subst hpq
      simp only [lookupPid, if_pos] at h
      injection h with h
      subst h
      simp [List.filter_cons, hf, lookupPid]
    · simp only [lookupPid, if_neg hpq] at h
      cases hfe : f (p, t) <;> simp [List.filter_cons, hfe, lookupPid, hpq, ih h]

lemma lookupPid_prune_keep (ttl now : Nat) (st : DriverState) (pid : Int)
    (ts : Nat) (h : lookupPid st.pidMap pid = some ts) (hts : now - ts ≤ ttl) :
    lookupPid (pruneStaleConnections ttl now st).pidMap pid = some ts := by
  unfold pruneStaleConnections
  split
  · exact h
  · exact lookupPid_filter_keep _ _ _ _ h (by simpa using hts)

lemma lookupPid_prune_none (ttl now : Nat) (st : DriverState) (q : Int)
    (h : lookupPid st.pidMap q = none) :
    lookupPid (pruneStaleConnections ttl now st).pidMap q = none := by
  unfold pruneStaleConnections
  split
  · exact h
  · exact lookupPid_filter_none _ _ _ h

/-! ### Single acquire-call lemmas -/

lemma acquire_step_new (ttl now : Nat) (pid : Int) (thr : Bool)
    (st : DriverState) (h : lookupPid st.pidMap pid = none) :
    (acquireConnection true ttl ⟨now, some pid, thr⟩ st).hookInvoked = true ∧
    (acquireConnection true ttl ⟨now, some pid, thr⟩ st).error
      = (if thr then some .hookFailed else none) ∧
    lookupPid (acquireConnection true ttl ⟨now, some pid, thr⟩ st).state.pidMap
      pid = some now ∧
    ∀ q, q ≠ pid → lookupPid st.pidMap q = none →
      lookupPid (acquireConnection true ttl ⟨now, some pid, thr⟩ st).state.pidMap
        q = none := by
  have h1 : lookupPid (pruneStaleConnections ttl now st).pidMap pid = none :=
    lookupPid_prune_none ttl now st pid h
  refine ⟨?_, ?_, ?_, ?_⟩
  · simp [acquireConnection, h1, isNewPid]
  · simp [acquireConnection, h1, isNewPid]
  · simp [acquireConnection, h1, isNewPid, lookupPid_setPid_self]
  · intro q hq hqn
    have h2 := lookupPid_prune_none ttl now st q hqn
    simp [acquireConnection, h1, isNewPid, lookupPid_setPid_ne _ _ _ _ hq, h2]

lemma acquire_step_refresh (ttl now : Nat) (pid : Int) (thr : Bool)
    (st : DriverState) (prev : Nat)
    (h : lookupPid st.pidMap pid = some prev) (hle : now - prev ≤ ttl) :
    (acquireConnection true ttl ⟨now, some pid, thr⟩ st).hookInvoked = false ∧
    (acquireConnection true ttl ⟨now, some pid, thr⟩ st).error = none ∧
    lookupPid (acquireConnection true ttl ⟨now, some pid, thr⟩ st).state.pidMap
      pid = some now ∧
    ∀ q, q ≠ pid → lookupPid st.pidMap q = none →
      lookupPid (acquireConnection true ttl ⟨now, some pid, thr⟩ st).state.pidMap
        q = none := by
  have h1 : lookupPid (pruneStaleConnections ttl now st).pidMap pid = some prev :=
    lookupPid_prune_keep ttl now st pid prev h hle
  have hnew : isNewPid ttl now (some prev) = false := by
    simp only [isNewPid, decide_eq_false_iff_not]
    omega
  refine ⟨?_, ?_, ?_, ?_⟩
  · simp [acquireConnection, h1, hnew]
  · simp [acquireConnection, h1, hnew]
  · simp [acquireConnection, h1, hnew, lookupPid_setPid_self]
  · intro q hq hqn
    have h2 := lookupPid_prune_none ttl now st q hqn
    simp [acquireConnection, h1, hnew, lookupPid_setPid_ne _ _ _ _ hq, h2]

/-! ### Acquire-run lemmas -/

lemma acquireRun_append (ttl : Nat) (l1 l2 : List (Nat × Int))
    (st : DriverState) :
    acquireRun ttl (l1 ++ l2) st =
      ((acquireRun ttl l1 st).1
        + (acquireRun ttl l2 (acquireRun ttl l1 st).2).1,
       (acquireRun ttl l2 (acquireRun ttl l1 st).2).2) := by
  induction l1 generalizing st with
  | nil => simp [acquireRun]
  | cons e rest ih =>
    obtain ⟨now, pid⟩ := e
    simp [acquireRun, ih, Nat.add_assoc]

/-- Running further acquires on a pid already tracked at a timestamp inside
the TTL window invokes the hook zero times, and keeps any other absent pid
absent from the map. -/
lemma acquireRun_refresh (ttl t0 : Nat) (p : Int) (ts : List Nat)
    (st : DriverState) (prev : Nat)
    (hlk : lookupPid st.pidMap p = some prev)
    (hprev : t0 ≤ prev)
    (hwin : ∀ t ∈ ts, t0 ≤ t ∧ t ≤ t0 + ttl) :
    (acquireRun ttl (ts.map (fun t => (t, p))) st).1 = 0 ∧
    ∀ q, q ≠ p → lookupPid st.pidMap q = none →
      lookupPid (acquireRun ttl (ts.map (fun t => (t, p))) st).2.pidMap q
        = none := by
  induction ts generalizing st prev with
  | nil =>
    refine ⟨rfl, ?_⟩
    intro q _ hqn
    exact hqn
  | cons t rest ih =>
    obtain ⟨ht0, htw⟩ := hwin t (List.mem_cons_self t rest)
    have hle : t - prev ≤ ttl := by omega
    obtain ⟨hstep_hook, _, hstep_lk, hstep_pres⟩ :=
      acquire_step_refresh ttl t p false st prev hlk hle
    have hwin' : ∀ u ∈ rest, t0 ≤ u ∧ u ≤ t0 + ttl :=
      fun u hu => hwin u (List.mem_cons_of_mem t hu)
    obtain ⟨ihc, ihp⟩ :=
      ih (acquireConnection true ttl ⟨t, some p, false⟩ st).state t hstep_lk
        ht0 hwin'
    refine ⟨?_, ?_⟩
    · simp only [List.map_cons, acquireRun, hstep_hook]
      simpa using ihc
    · intro q hq hqn
      have := ihp q hq (hstep_pres q hq hqn)
      simpa [List.map_cons, acquireRun] using this

/-! ### Auxiliary list lemmas -/

lemma flatten_map_singleton {T : Type} (l : List T) :
    (l.map (fun r => [r])).flatten = l := by
  induction l with
  | nil => rfl
  | cons a rest ih => simp [ih]

/-! ### Claim theorems -/

/-- Claim C1: for every TransactionSettings value, `beginTransaction(handle,
settings)` executes on the handle exactly the command text given by the
builder rules — "begin" with both unset, "start transaction isolation level
{level}" with only the level, "start transaction {mode}" with only the mode,
and "start transaction isolation level {level} {mode}" with both, levels and
modes rendered as their literal lowercase enumerated forms. -/
theorem beginTransaction_builds_command (executed : List String)
    (iso : Option IsolationLevel) (mode : Option AccessMode) :
    beginTransaction executed ⟨iso, mode⟩ =
      executed ++
        [match iso, mode with
         | none, none => "begin"
         | some level, none =>
           "start transaction isolation level " ++ level.render
         | none, some m => "start transaction " ++ m.render
         | some level, some m =>
           "start transaction isolation level " ++ level.render
             ++ " " ++ m.render] := by
  cases iso with
  | none =>
    cases mode with
    | none => rfl
    | some m => cases m <;> rfl
  | some level =>
    cases mode with
    | none => cases level <;> rfl
    | some m => cases level <;> cases m <;> rfl

/-- Claim C4: `executeQuery` reports `numAffectedRows = count` exactly when
the command is one of INSERT, UPDATE, DELETE, MERGE and the count is defined
(otherwise it is omitted, notably for SELECT or a missing count), and `rows`
is always the materialized input row sequence in order. -/
theorem executeQuery_interpretation {T : Type} (raw : BunSqlResult T) :
    (executeQuery raw).rows = raw.rows ∧
    ∀ n : Nat,
      ((executeQuery raw).numAffectedRows = some n ↔
        ((raw.command = some "INSERT" ∨ raw.command = some "UPDATE" ∨
          raw.command = some "DELETE" ∨ raw.command = some "MERGE") ∧
         raw.count = some n)) := by
  refine ⟨rfl, fun n => ?_⟩
  simp only [executeQuery]
  split
  next hc =>
    simp only [Bool.and_eq_true, Bool.or_eq_true, decide_eq_true_eq,
      Option.isSome_iff_exists] at hc
    constructor
    · intro hcount
      exact ⟨by tauto, hcount⟩
    · intro h
      exact h.2
  next hc =>
    simp only [Bool.and_eq_true, Bool.or_eq_true, decide_eq_true_eq,
      Option.isSome_iff_exists, not_and_or] at hc
    constructor
    · intro hcount
      simp at hcount
    · intro h
      rcases hc with hcmd | hcnt
      · exact absurd (by tauto) hcmd
      · exact absurd ⟨n, h.2⟩ hcnt

/-- Claim C7: `streamQuery` fully interprets the query like `executeQuery`
and then yields exactly one single-row batch per interpreted row, in the
original order: the batch row-lists are exactly the singletons of the
interpreted rows, their concatenation is the `rows` field of the
`executeQuery` result, and there are exactly as many batches as rows (so an
empty result yields no batches). -/
theorem streamQuery_single_row_batches {T : Type} (raw : BunSqlResult T) :
    (streamQuery raw).map (fun b => b.rows)
      = (executeQuery raw).rows.map (fun r => [r]) ∧
    ((streamQuery raw).map (fun b => b.rows)).flatten = (executeQuery raw).rows ∧
    (streamQuery raw).length = (executeQuery raw).rows.length := by
  have h1 : (streamQuery raw).map (fun b => b.rows)
      = (executeQuery raw).rows.map (fun r => [r]) := by
    simp [streamQuery, List.map_map]
  refine ⟨h1, ?_, ?_⟩
  · rw [h1, flatten_map_singleton]
  · simp [streamQuery]

/-- Claim C9: `releaseConnection` applied to a value that is not an instance
of the driver's own connection class returns normally without releasing
anything and without throwing; a physical release happens exactly for the
driver's own connections. -/
theorem releaseConnection_instanceof_guard (v : JsValue) (c : ConnectionValue) :
    releaseConnection (.foreign v) = { released := none, threw := false } ∧
    (releaseConnection c).threw = false ∧
    ((releaseConnection c).released.isSome ↔ ∃ cid, c = .bunPostgres cid) := by
  refine ⟨rfl, ?_, ?_⟩
  · cases c <;> rfl
  · cases c with
    | bunPostgres cid => simp [releaseConnection]
    | foreign w => simp [releaseConnection]

/-- Claim C10: config resolution tests the url by truthiness, so an
empty-string top-level url is treated as absent: `init` with `url = ""` and
clientOptions present constructs the client from clientOptions verbatim
(keeping any `clientOptions.url`), and with `url = ""` and no clientOptions
it constructs the client with no arguments. -/
theorem init_empty_url_treated_absent (opts : OptionsObject) :
    driverInit ⟨none, some "", some opts⟩
      = .construct (.options opts) ∧
    driverInit ⟨none, some "", none⟩ = .construct .empty := by
  constructor
  · simp [driverInit, resolveSqlConstructorArgs]
  · simp [driverInit, resolveSqlConstructorArgs]

lemma lookupField_removeField (opts : OptionsObject) (key k : String)
    (h : k ≠ key) :
    lookupField (removeField opts key) k = lookupField opts k := by
  induction opts with
  | nil => rfl
  | cons e rest ih =>
    obtain ⟨ek, ev⟩ := e
    by_cases hek : ek = key
    · subst hek
      simp [removeField, lookupField, Ne.symm h, ih]
    · by_cases hk : ek = k <;> simp [removeField, hek, lookupField, hk, ih, h]

/-- Claim C3: with a nonempty top-level url set together with clientOptions,
`init` constructs the client from an options object whose `url` field is the
top-level url — never `clientOptions.url`, even when that key is provided —
while every other key of clientOptions passes through as the very same value
(so embedded callbacks keep their identity). -/
theorem init_url_precedence (u : String) (opts : OptionsObject) (h : u ≠ "") :
    ∃ o, driverInit ⟨none, some u, some opts⟩ = .construct (.options o) ∧
      lookupField o "url" = some (.str u) ∧
      ∀ k, k ≠ "url" → lookupField o k = lookupField opts k := by
  refine ⟨("url", .str u) :: removeField opts "url", ?_, ?_, ?_⟩
  · simp [driverInit, resolveSqlConstructorArgs, h]
  · simp [lookupField]
  · intro k hk
    simp only [lookupField, if_neg (Ne.symm hk)]
    exact lookupField_removeField opts "url" k hk

theorem init_url_precedence_witness :
    ("postgres://primary" ≠ "") ∧
    ∃ o, driverInit ⟨none, some "postgres://primary",
          some [("url", JsValue.str "postgres://secondary"),
                ("onconnect", JsValue.callback 42)]⟩
        = .construct (.options o) ∧
      lookupField o "url" = some (.str "postgres://primary") ∧
      ∀ k, k ≠ "url" →
        lookupField o k
          = lookupField [("url", JsValue.str "postgres://secondary"),
                         ("onconnect", JsValue.callback 42)] k :=
  ⟨by decide, init_url_precedence "postgres://primary"
    [("url", JsValue.str "postgres://secondary"),
     ("onconnect", JsValue.callback 42)] (by decide)⟩

/-- Claim C5: with no one-time hook configured, any number of acquire calls
issues no identity query, invokes no hook, and leaves the tracking state
untouched — each call returns the wrapped handle immediately. -/
theorem no_hook_no_identity_query (ttl : Nat) (envs : List AcquireEnv)
    (st : DriverState) :
    (acquireTrace false ttl envs st).map (fun r => r.identityQueried)
      = List.replicate envs.length false ∧
    (acquireTrace false ttl envs st).map (fun r => r.hookInvoked)
      = List.replicate envs.length false ∧
    acquireFinalState false ttl envs st = st := by
  induction envs generalizing st with
  | nil => exact ⟨rfl, rfl, rfl⟩
  | cons env rest ih =>
    have hstep : acquireConnection false ttl env st
        = ⟨false, false, none, st⟩ := rfl
    obtain ⟨ih1, ih2, ih3⟩ := ih st
    refine ⟨?_, ?_, ?_⟩ <;>
      simp [acquireTrace, acquireFinalState, hstep, ih1, ih2, ih3,
        List.replicate_succ]

/-- Claim C6 counterexample: the identity check in `acquireConnection` tests
only `typeof pid !== "number"`.  When the identity query yields the number
-5 — which is not a usable positive-integer identifier — the call does not
fail and the hook IS invoked, contradicting the claim that any non-positive-
integer identity result is a configuration error. -/
theorem acquire_accepts_nonpositive_pid :
    ((-5 : Int) ≤ 0) ∧
    (acquireConnection true DEFAULT_CONNECTION_TTL_MS
        ⟨0, some (-5), false⟩ ⟨[], 0⟩).error = none ∧
    (acquireConnection true DEFAULT_CONNECTION_TTL_MS
        ⟨0, some (-5), false⟩ ⟨[], 0⟩).hookInvoked = true := by
  refine ⟨by decide, by decide, by decide⟩

/-- Claim C6 (amended): with a hook configured, `acquireConnection` fails —
with the descriptive configuration error message naming the missing backend
PID, and without invoking the hook — exactly when the identity query yields
no numeric identifier at all; any numeric value (positive or not) is
accepted without error. -/
theorem acquire_missing_pid_is_config_error (ttl now : Nat)
    (st : DriverState) :
    (acquireConnection true ttl ⟨now, none, false⟩ st).error
      = some (.pidUnavailable pidErrorMessage) ∧
    (acquireConnection true ttl ⟨now, none, false⟩ st).hookInvoked = false ∧
    ∀ z : Int, (acquireConnection true ttl ⟨now, some z, false⟩ st).error
      = none := by
  refine ⟨rfl, rfl, fun z => ?_⟩
  cases hn : isNewPid ttl now
      (lookupPid (pruneStaleConnections ttl now st).pidMap z) <;>
    simp [acquireConnection, hn]

/-- Claim C2: over sequential acquire cycles with a configured hook, all
within one TTL window, the identity query returning the fixed PID `p` for
the first `1 + ts1.length` cycles and the different PID `q` for the
remaining `ts2.length` cycles, the hook is invoked exactly once when the PID
never changes and exactly twice (one additional invocation for the new PID)
when it does. -/
theorem onCreateConnection_once_per_pid (ttl : Nat) (p q : Int) (t0 : Nat)
    (ts1 ts2 : List Nat) (hpq : p ≠ q)
    (hwin : ∀ t ∈ ts1 ++ ts2, t0 ≤ t ∧ t ≤ t0 + ttl) :
    (acquireRun ttl
        ((t0 :: ts1).map (fun t => (t, p)) ++ ts2.map (fun t => (t, q)))
        ⟨[], 0⟩).1 = if ts2.isEmpty then 1 else 2 := by
  obtain ⟨s0hook, _, s0lk, s0pres⟩ :=
    acquire_step_new ttl t0 p false ⟨[], 0⟩ rfl
  rw [List.map_cons, List.cons_append]
  have hsplit :
      (acquireRun ttl
          ((t0, p) :: (ts1.map (fun t => (t, p)) ++ ts2.map (fun t => (t, q))))
          ⟨[], 0⟩).1
        = 1 + (acquireRun ttl
            (ts1.map (fun t => (t, p)) ++ ts2.map (fun t => (t, q)))
            (acquireConnection true ttl ⟨t0, some p, false⟩ ⟨[], 0⟩).state).1 := by
    simp [acquireRun, s0hook]
  rw [hsplit, acquireRun_append]
  obtain ⟨ph1count, ph1pres⟩ :=
    acquireRun_refresh ttl t0 p ts1
      (acquireConnection true ttl ⟨t0, some p, false⟩ ⟨[], 0⟩).state t0 s0lk
      (le_refl t0) (fun t ht => hwin t (List.mem_append_left _ ht))
  rw [ph1count]
  have hq1 : lookupPid
      (acquireRun ttl (ts1.map (fun t => (t, p)))
        (acquireConnection true ttl ⟨t0, some p, false⟩ ⟨[], 0⟩).state).2.pidMap
      q = none :=
    ph1pres q (Ne.symm hpq) (s0pres q (Ne.symm hpq) rfl)
  cases ts2 with
  | nil => simp [acquireRun]
  | cons tq rest2 =>
    obtain ⟨htq0, _⟩ :=
      hwin tq (List.mem_append_right _ (List.mem_cons_self tq rest2))
    obtain ⟨s2hook, _, s2lk, _⟩ := acquire_step_new ttl tq q false _ hq1
    obtain ⟨ph2count, _⟩ :=
      acquireRun_refresh ttl t0 q rest2 _ tq s2lk htq0
        (fun t ht => hwin t
          (List.mem_append_right _ (List.mem_cons_of_mem tq ht)))
    simp [acquireRun, s2hook, ph2count]

theorem onCreateConnection_once_per_pid_witness :
    ((1 : Int) ≠ 2) ∧
    (∀ t ∈ ([10] ++ [20] : List Nat), 0 ≤ t ∧ t ≤ 0 + 1000) ∧
    (acquireRun 1000
        (((0 : Nat) :: [10]).map (fun t => (t, (1 : Int)))
          ++ ([20] : List Nat).map (fun t => (t, (2 : Int))))
        ⟨[], 0⟩).1 = if ([20] : List Nat).isEmpty then 1 else 2 :=
  ⟨by decide, by decide,
    onCreateConnection_once_per_pid 1000 1 2 0 [10] [20] (by decide)
      (by decide)⟩

/-- Claim C8: `acquireConnection` records `pid := now` in the tracking map
before awaiting the hook, so when the hook throws on a fresh PID the error
propagates to the caller while the PID stays recorded as initialized, and a
later acquire that observes the same PID within the TTL does not re-invoke
the hook — tracking state is not rolled back on hook failure. -/
theorem hook_failure_keeps_pid_tracked (ttl t1 t2 : Nat) (pid : Int)
    (st : DriverState) (h1 : lookupPid st.pidMap pid = none)
    (h2 : t2 - t1 ≤ ttl) :
    (acquireConnection true ttl ⟨t1, some pid, true⟩ st).error
      = some .hookFailed ∧
    lookupPid
      (acquireConnection true ttl ⟨t1, some pid, true⟩ st).state.pidMap pid
      = some t1 ∧
    (acquireConnection true ttl ⟨t2, some pid, false⟩
        (acquireConnection true ttl ⟨t1, some pid, true⟩ st).state).hookInvoked
      = false := by
  obtain ⟨_, herr, hlk, _⟩ := acquire_step_new ttl t1 pid true st h1
  refine ⟨by simpa using herr, hlk, ?_⟩
  obtain ⟨hhook, _, _, _⟩ :=
    acquire_step_refresh ttl t2 pid false
      (acquireConnection true ttl ⟨t1, some pid, true⟩ st).state t1 hlk h2
  exact hhook

theorem hook_failure_keeps_pid_tracked_witness :
    lookupPid (DriverState.mk [] 0).pidMap 7 = none ∧
    (10 : Nat) - 0 ≤ 1000 ∧
    (acquireConnection true 1000 ⟨10, some 7, false⟩
        (acquireConnection true 1000 ⟨0, some 7, true⟩ ⟨[], 0⟩).state).hookInvoked
      = false :=
  ⟨rfl, by decide,
    (hook_failure_keeps_pid_tracked 1000 0 10 7 ⟨[], 0⟩ rfl (by decide)).2.2⟩
